import Mathlib

/-!
Verification of the ALauncher game-launcher subsystem
(`packages/frontend/src-tauri/src/game_launcher.rs`) against its
natural-language specification.

The Rust code is shallowly embedded: filesystem trees become explicit
lists of named files, the process registry becomes an association list,
and the global identifier counter becomes explicit state passing.
-/

namespace ALauncher

/-! ## String helpers (embedding Rust `str::contains`, `Path::file_name`,
`Path::extension`, `str::to_lowercase`, integer formatting) -/

/-- Boolean prefix test on character lists (helper for substring search). -/
def charsPrefixOf : List Char → List Char → Bool
  | [], _ => true
  | _ :: _, [] => false
  | a :: as, b :: bs => a == b && charsPrefixOf as bs

/-- Substring search on character lists: does `pat` occur inside `s`? -/
def charsContains (pat : List Char) : List Char → Bool
  | [] => charsPrefixOf pat []
  | c :: rest => charsPrefixOf pat (c :: rest) || charsContains pat rest

/-- Embeds Rust `s.contains(pat)` (substring containment). -/
def strContains (s pat : String) : Bool :=
  charsContains pat.data s.data

/-- Embeds Rust `Path::file_name` on a slash-separated path string:
the component after the last `/`. -/
def baseName (s : String) : String :=
  String.mk (s.data.foldl (fun acc c => if c == '/' then [] else acc ++ [c]) [])

/-- Extension of a bare file name (no directory part): the part after the
last dot, provided a dot exists and is not the leading character.
Mirrors Rust `Path::extension` on typical names. -/
def extOfBase (name : String) : Option String :=
  match name.data.reverse.span (fun c => !(c == '.')) with
  | (_, []) => none
  | (extRev, _ :: before) =>
    if before.isEmpty then none else some (String.mk extRev.reverse)

/-- Embeds Rust `path.extension()` for a full path string. -/
def fileExt (s : String) : Option String :=
  extOfBase (baseName s)

/-- Embeds Rust `str::to_lowercase` (character-wise lowering; the inputs
here are ASCII path and extension strings). -/
def strToLower (s : String) : String :=
  String.mk (s.data.map Char.toLower)

/-! ## Host platform and the platform filter
(`prepare_natives_local`, lines 448-483) -/

/-- The host platform, as distinguished by the `cfg!(target_os = ...)`
checks in the source. -/
inductive Platform
  | windows
  | linux
  | macos
  | other
deriving DecidableEq, Repr

/-- The platform string computed at lines 448-456 of the source. -/
def platformStr : Platform → String
  | Platform.windows => "windows"
  | Platform.linux => "linux"
  | Platform.macos => "macos"
  | Platform.other => "unknown"

/-- Embeds the `platform_specific` test of lines 472-477: the lowercased
jar path contains the substring `natives-` and names the host platform. -/
def platform_specific (host : Platform) (jarName : String) : Bool :=
  strContains jarName "natives-" &&
    (strContains jarName ("natives-" ++ platformStr host) ||
     (strContains jarName "natives-windows" && (host == Platform.windows)) ||
     (strContains jarName "natives-linux" && (host == Platform.linux)) ||
     (strContains jarName "natives-osx" && (host == Platform.macos)) ||
     (strContains jarName "natives-macos" && (host == Platform.macos)))

/-- Embeds the skip decision of line 480: a candidate jar is skipped iff
its lowercased path contains `natives-` and is not platform-specific
for the host. -/
def skipsJar (host : Platform) (jarName : String) : Bool :=
  strContains jarName "natives-" && !(platform_specific host jarName)

/-- Spec-side notion: the host platform's own marker occurs in the name
(the macOS marker has the two accepted spellings `natives-osx` and
`natives-macos`; an unrecognized host uses `natives-unknown`, matching
the `format!("natives-{}", platform)` branch of the source). -/
def hostMarker (host : Platform) (jarName : String) : Bool :=
  match host with
  | Platform.windows => strContains jarName "natives-windows"
  | Platform.linux => strContains jarName "natives-linux"
  | Platform.macos =>
      strContains jarName "natives-osx" || strContains jarName "natives-macos"
  | Platform.other => strContains jarName "natives-unknown"

/-! ## Filesystem model for the natives directory
(`consolidate_natives`, `check_natives_exist_in_root`, lines 505-574) -/

/-- A regular file: its name (final path component) and its content. -/
structure FsFile where
  name : String
  content : String
deriving DecidableEq, Repr

/-- The `natives` directory: the files sitting directly at its root, and
the recursive file listings (in traversal order) of the four
platform-named subdirectories `windows`, `linux`, `macos`, `osx` that
`consolidate_natives` walks. A missing subdirectory is an empty list. -/
structure NativesDir where
  rootFiles : List FsFile
  winFiles : List FsFile
  linuxFiles : List FsFile
  macosFiles : List FsFile
  osxFiles : List FsFile
deriving DecidableEq, Repr

/-- Consolidation's per-file test (line 529): the lowercased extension is
one of the three native-library suffixes. -/
def hasNativeExtLower (name : String) : Bool :=
  match fileExt name with
  | some e =>
      strToLower e == "dll" || strToLower e == "so" || strToLower e == "dylib"
  | none => false

/-- The root check of `check_natives_exist_in_root` (line 567): the
extension is compared case-sensitively against the three suffixes. -/
def isNativeRootFile (name : String) : Bool :=
  fileExt name == some "dll" || fileExt name == some "so" ||
    fileExt name == some "dylib"

/-- One step of the consolidation loop (lines 525-547): a file with a
native extension is copied to the root — and counted — unless a file of
the same name already sits there; any other file is ignored. -/
def consolidateStep (acc : List FsFile × Nat) (f : FsFile) : List FsFile × Nat :=
  if hasNativeExtLower f.name then
    if acc.1.any (fun g => g.name == f.name) then acc
    else (acc.1 ++ [f], acc.2 + 1)
  else acc

/-- The files `consolidate_natives` walks, in the order of the
`platform_dirs` array `["windows", "linux", "macos", "osx"]` (line 508). -/
def subdirFiles (d : NativesDir) : List FsFile :=
  d.winFiles ++ d.linuxFiles ++ d.macosFiles ++ d.osxFiles

/-- The root file list and copied-file count produced by the
consolidation loop. -/
def consolidateFold (d : NativesDir) : List FsFile × Nat :=
  (subdirFiles d).foldl consolidateStep (d.rootFiles, 0)

/-- Embeds `consolidate_natives` (lines 505-556): the updated directory
and the Rust return value. The Rust signature is
`Result<(), String>`; in this model, whose filesystem operations do not
fail, every run returns `Ok(())` (the `Err` branches of the source
correspond to `walkdir`/`fs::copy` I/O failures). The copied-file count
of the source is only written to the log, never returned; it is exposed
separately as `consolidate_copied_count`. -/
def consolidate_natives (d : NativesDir) : NativesDir × Except String Unit :=
  ({ d with rootFiles := (consolidateFold d).1 }, Except.ok ())

/-- The `copied_count` local of `consolidate_natives` (lines 509, 543):
how many files the run copies into the root. -/
def consolidate_copied_count (d : NativesDir) : Nat :=
  (consolidateFold d).2

/-- Embeds `check_natives_exist_in_root` (lines 561-574) applied to a
root file listing. -/
def check_natives_exist_in_root (root : List FsFile) : Bool :=
  root.any (fun f => isNativeRootFile f.name)

/-! ## Candidate archives and native extraction
(`find_natives_jars`, `extract_natives_from_jar`, `prepare_natives_local`,
lines 417-660) -/

/-- One file found under the `libraries` root: its full path (as the
directory walk yields it), whether it opens and parses as a ZIP archive,
and its entry list (entry names are archive-internal paths). -/
structure LibFile where
  path : String
  opensOk : Bool
  entries : List FsFile
deriving DecidableEq, Repr

/-- Embeds `find_natives_jars` (lines 579-607): keep the files whose
extension is exactly `jar` and whose lowercased file name contains
`natives`. A missing libraries directory is the empty listing. -/
def find_natives_jars (files : List LibFile) : List LibFile :=
  files.filter (fun f =>
    fileExt f.path == some "jar" && strContains (strToLower (baseName f.path)) "natives")

/-- Writing a file into a directory listing: `fs::File::create` truncates,
so an existing file of the same name is overwritten in place; otherwise
the file is appended. -/
def write_file (root : List FsFile) (f : FsFile) : List FsFile :=
  if root.any (fun g => g.name == f.name) then
    root.map (fun g => if g.name == f.name then f else g)
  else root ++ [f]

/-- Embeds the entry loop of `extract_natives_from_jar` (lines 623-649):
every entry whose lowercased extension is a native-library suffix is
written to the destination root under its base name. -/
def extract_natives_from_jar (jar : LibFile) (root : List FsFile) : List FsFile :=
  jar.entries.foldl
    (fun acc ent =>
      if hasNativeExtLower ent.name then
        write_file acc ⟨baseName ent.name, ent.content⟩
      else acc)
    root

/-- Embeds the extraction loop of `prepare_natives_local` (lines 469-489):
each candidate whose lowercased path marks a foreign platform is skipped;
a candidate that fails to open is logged and skipped; the rest are
extracted into the natives root. -/
def extractAllJars (host : Platform) (jars : List LibFile) (root : List FsFile) :
    List FsFile :=
  jars.foldl
    (fun acc jar =>
      if skipsJar host (strToLower jar.path) then acc
      else if jar.opensOk then extract_natives_from_jar jar acc
      else acc)
    root

/-- The game directory state `prepare_natives_local` operates on: the
natives directory tree, whether `game_dir/libraries` is a directory, and
the recursive file listing of the libraries root (in traversal order). -/
structure GameDir where
  natives : NativesDir
  librariesIsDir : Bool
  libraryFiles : List LibFile
deriving DecidableEq, Repr

/-- Embeds `prepare_natives_local` (lines 421-499): consolidate, succeed
early if natives already sit at the root, otherwise scan for candidate
jars (no candidates is a success), extract the platform-filtered
candidates, and fail iff the root still holds no native library. -/
def prepare_natives_local (host : Platform) (g : GameDir) : Except String GameDir :=
  let nd := (consolidate_natives g.natives).1
  if check_natives_exist_in_root nd.rootFiles then
    Except.ok { g with natives := nd }
  else
    let jars := find_natives_jars g.libraryFiles
    if jars.isEmpty then
      Except.ok { g with natives := nd }
    else
      let nd2 := { nd with rootFiles := extractAllJars host jars nd.rootFiles }
      if check_natives_exist_in_root nd2.rootFiles then
        Except.ok { g with natives := nd2 }
      else
        Except.error "No native libraries were extracted to root directory"

/-- Embeds `prepare_natives` (lines 658-660), the wrapper that forwards
to `prepare_natives_local`. -/
def prepare_natives (host : Platform) (g : GameDir) : Except String GameDir :=
  prepare_natives_local host g

/-! ## Launch command construction (`launch_game_client`, lines 110-194) -/

/-- Embeds the `LaunchParams` request struct (lines 12-31). -/
structure LaunchParams where
  profile_id : String
  username : String
  uuid : String
  access_token : String
  game_dir : String
  assets_dir : String
  resolutionWidth : Nat
  resolutionHeight : Nat
  full_screen : Bool
  java_path : String
  java_version : String
  ram : String
  jvm_args : List String
  client_args : List String
  main_class : String
  class_path : List String
  server_address : Option String
  server_port : Option Int
deriving DecidableEq, Repr

/-- The platform path separator used when joining path components. -/
def pathSep (host : Platform) : String :=
  if host == Platform.windows then "\x5c" else "/"

/-- Embeds `Path::join` followed by `to_string_lossy`. -/
def pathJoin (host : Platform) (a b : String) : String :=
  a ++ pathSep host ++ b

/-- The classpath separator of line 114: `;` on Windows, `:` elsewhere. -/
def cpSeparator (host : Platform) : String :=
  if host == Platform.windows then ";" else ":"

/-- Decimal digits of a natural number, least significant first, by
division by 10; the first argument is fuel (`n` itself suffices). -/
def natDigitsAux : Nat → Nat → List Nat
  | 0, _ => []
  | _ + 1, 0 => []
  | fuel + 1, n + 1 => (n + 1) % 10 :: natDigitsAux fuel ((n + 1) / 10)

/-- Decimal digits of `n`, least significant first (`[]` for zero). -/
def natDigits (n : Nat) : List Nat :=
  natDigitsAux n n

/-- Embeds Rust's decimal `Display` for unsigned integers. -/
def fmtNat (n : Nat) : String :=
  if n = 0 then "0"
  else String.mk (((natDigits n).map Nat.digitChar).reverse)

/-- Embeds Rust's decimal `Display` for `i32` (used for the server port). -/
def fmtInt : Int → String
  | Int.ofNat n => fmtNat n
  | Int.negSucc n => "-" ++ fmtNat (n + 1)

/-- Embeds the argument-vector construction of `launch_game_client`
(lines 110-194): classpath resolution with the `libraries` sentinel
expanded to every jar under the libraries root, the two memory flags,
the `java.library.path` flag, the caller's JVM flags, the main class,
the client flags, the synthesized identity flags, and the optional
server address/port pair. -/
def buildLaunchArgs (host : Platform) (p : LaunchParams) (librariesIsDir : Bool)
    (libFiles : List LibFile) : List String :=
  let newClassPath := p.class_path.foldl
    (fun acc item =>
      if item == "libraries" then
        if librariesIsDir then
          acc ++ (libFiles.filter (fun f => fileExt f.path == some "jar")).map
            (fun f => f.path)
        else acc
      else acc ++ [pathJoin host p.game_dir item])
    []
  ["-cp", String.intercalate (cpSeparator host) newClassPath]
    ++ ["-Xmx" ++ p.ram ++ "m", "-Xms" ++ p.ram ++ "m"]
    ++ ["-Djava.library.path=" ++ pathJoin host p.game_dir "natives"]
    ++ p.jvm_args
    ++ [p.main_class]
    ++ p.client_args
    ++ ["--username", p.username, "--uuid", p.uuid,
        "--accessToken", p.access_token, "--version", p.profile_id,
        "--gameDir", p.game_dir, "--assetsDir", p.assets_dir,
        "--assetIndex", "1.12", "--userType", "mojang",
        "--versionType", "release"]
    ++ (match p.server_address with
        | some addr =>
            ["--server", addr] ++
              (match p.server_port with
               | some port => ["--port", fmtInt port]
               | none => [])
        | none => [])

/-! ## Working/asset directory validation (lines 198-228) -/

/-- What a path currently is on disk. -/
inductive PathState
  | absent
  | file
  | dir
deriving DecidableEq, Repr

/-- The two directories `launch_game_client` validates. -/
structure LaunchDirs where
  gameDir : PathState
  assetsDir : PathState
deriving DecidableEq, Repr

/-- How far a launch attempt gets: an early error return, or reaching
`cmd.spawn()` with the directories in the given final state. -/
inductive LaunchOutcome
  | errored (msg : String)
  | spawnAttempted (dirs : LaunchDirs)
deriving DecidableEq, Repr

/-- Embeds the preparation call (lines 99-107) and the directory
validation of `launch_game_client` (lines 198-228): a preparation error
aborts; an absent game directory is created and the game path must then
be a directory; an absent assets directory is created with no further
check; then the spawn is attempted. -/
def launch_game_client_dirs (prep : Except String Unit) (d : LaunchDirs) :
    LaunchOutcome :=
  match prep with
  | Except.error e =>
      LaunchOutcome.errored ("Failed to prepare native libraries: " ++ e)
  | Except.ok _ =>
    let g := if d.gameDir = PathState.absent then PathState.dir else d.gameDir
    if g ≠ PathState.dir then
      LaunchOutcome.errored "Path is not a valid directory"
    else
      let a := if d.assetsDir = PathState.absent then PathState.dir else d.assetsDir
      LaunchOutcome.spawnAttempted ⟨g, a⟩

/-! ## Process registry, poll, kill, cleanup
(`PROCESSES`, `check_game_process`, `kill_game_process`,
`cleanup_dead_processes`, lines 57-68 and 331-685) -/

/-- Result of `Child::try_wait`: the process has exited with an optional
code, is still running (`Ok(None)`), or the status check itself errored. -/
inductive TryWaitRes
  | exited (code : Option Int)
  | running
  | errW
deriving DecidableEq, Repr

/-- Decidable equality for `Except`, needed to evaluate concrete
registry states. -/
instance exceptDecEq {ε α : Type} [DecidableEq ε] [DecidableEq α] :
    DecidableEq (Except ε α)
  | Except.ok a, Except.ok b =>
    if h : a = b then isTrue (by rw [h])
    else isFalse (by intro he; cases he; exact h rfl)
  | Except.ok _, Except.error _ => isFalse (by intro h; cases h)
  | Except.error _, Except.ok _ => isFalse (by intro h; cases h)
  | Except.error e, Except.error f =>
    if h : e = f then isTrue (by rw [h])
    else isFalse (by intro he; cases he; exact h rfl)

/-- The live state of one spawned process (`GameProcess`, lines 58-64),
with the OS interactions of its `Child` handle made explicit: what
`kill()` would report, what `try_wait()` currently reports, and the two
captured output buffers (already lossily decoded). -/
structure ProcHandle where
  killOutcome : Except String Unit
  tryWaitR : TryWaitRes
  stdoutBuf : String
  stderrBuf : String
deriving DecidableEq, Repr

/-- The process registry (`PROCESSES`, line 67): identifier-keyed records. -/
abbrev Registry : Type := List (String × ProcHandle)

/-- `HashMap::get` on the registry. -/
def lookupId (reg : Registry) (id : String) : Option ProcHandle :=
  ((reg : List (String × ProcHandle)).find? (fun p => p.1 == id)).map (fun p => p.2)

/-- `HashMap::remove` on the registry. -/
def removeId (reg : Registry) (id : String) : Registry :=
  (reg : List (String × ProcHandle)).filter (fun p => !(p.1 == id))

/-- The status record `check_game_process` returns (lines 49-55). -/
structure ProcessStatus where
  running : Bool
  exit_code : Option Int
  stdout : Option String
  stderr : Option String
deriving DecidableEq, Repr

/-- Embeds `check_game_process` (lines 331-381): an unknown identifier is
the "Process not found" error; an exited process yields its code and the
captured buffers; a running process — or a failing status check — yields
a bare running status. -/
def check_game_process (reg : Registry) (id : String) :
    Except String ProcessStatus :=
  match lookupId reg id with
  | none => Except.error "Process not found"
  | some p =>
    match p.tryWaitR with
    | TryWaitRes.exited c =>
        Except.ok ⟨false, c, some p.stdoutBuf, some p.stderrBuf⟩
    | TryWaitRes.running => Except.ok ⟨true, none, none, none⟩
    | TryWaitRes.errW => Except.ok ⟨true, none, none, none⟩

/-- Embeds `kill_game_process` (lines 383-407): the record is removed
from the registry first, then the process is killed; a kill error is
returned to the caller, but the removal has already happened. -/
def kill_game_process (reg : Registry) (id : String) :
    Except String Bool × Registry :=
  match lookupId reg id with
  | none => (Except.error "Process not found", reg)
  | some p =>
    let reg2 := removeId reg id
    match p.killOutcome with
    | Except.ok _ => (Except.ok true, reg2)
    | Except.error e =>
        (Except.error ("Failed to kill process: " ++ e), reg2)

/-- Embeds `cleanup_dead_processes` (lines 664-685): collect every
identifier whose `try_wait` matches `Ok(_)` — note: this matches both
`Ok(Some(status))` and `Ok(None)` — then remove each collected
identifier. -/
def cleanup_dead_processes (reg : Registry) : Registry :=
  let dead := ((reg : List (String × ProcHandle)).filter
    (fun p =>
      match p.2.tryWaitR with
      | TryWaitRes.errW => false
      | _ => true)).map (fun p => p.1)
  dead.foldl (fun r id => removeId r id) reg

/-! ## Identifier generation (`NEXT_ID`, `generate_process_id`,
lines 68 and 410-415) -/

/-- Embeds `generate_process_id`: read the counter, format the
identifier, increment the counter. `NEXT_ID` is a `u64`, so the
increment wraps modulo `2^64 = 18446744073709551616`, as the
release-build `*id += 1` does on overflow. -/
def generate_process_id (s : Nat) : String × Nat :=
  ("game_process_" ++ fmtNat s, (s + 1) % 18446744073709551616)

/-- The initial value of the `NEXT_ID` counter (line 68). -/
def NEXT_ID_initial : Nat := 1

/-- The counter value after `k` launches (wrapping, like the `u64` it
embeds). -/
def counterAfter : Nat → Nat
  | 0 => NEXT_ID_initial
  | k + 1 => (generate_process_id (counterAfter k)).2

/-- The identifier issued to the `k`-th launch (zero-based). -/
def idIssued (k : Nat) : String :=
  (generate_process_id (counterAfter k)).1

/-! ## Lock/decode event order inside `check_game_process`
(lines 335-381) -/

/-- The lock and decode events a single poll call performs, in order. -/
inductive PollEvent
  | lockRegistry
  | mapLookup
  | tryWait
  | lockBuf (isStdout : Bool)
  | decodeBuf (isStdout : Bool)
  | unlockBuf (isStdout : Bool)
  | unlockRegistry
deriving DecidableEq, Repr

/-- The event sequence of one `check_game_process` call, read off the
source: the registry guard `processes` is bound at line 336 and dropped
only when the enclosing block ends, after the status has been built, so
`unlockRegistry` is the final event; when the process has exited
(`exited = true`), each buffer is locked, decoded and unlocked in
between (lines 342-347). -/
def check_game_process_events (exited : Bool) : List PollEvent :=
  [PollEvent.lockRegistry, PollEvent.mapLookup, PollEvent.tryWait]
    ++ (if exited then
          [PollEvent.lockBuf true, PollEvent.decodeBuf true,
           PollEvent.unlockBuf true, PollEvent.lockBuf false,
           PollEvent.decodeBuf false, PollEvent.unlockBuf false]
        else [])
    ++ [PollEvent.unlockRegistry]

/-! ## Lemmas about the consolidation loop -/

/-- Each consolidation step either leaves the accumulator alone or
appends the file and counts one copy. -/
theorem consolidateStep_cases (acc : List FsFile × Nat) (f : FsFile) :
    consolidateStep acc f = acc ∨
      consolidateStep acc f = (acc.1 ++ [f], acc.2 + 1) := by
  unfold consolidateStep
  cases h1 : hasNativeExtLower f.name with
  | false => simp
  | true =>
    cases h2 : acc.1.any (fun g => g.name == f.name) with
    | false => simp
    | true => simp

/-- After a step on a native-extension file, the file name is present in
the accumulator. -/
theorem consolidateStep_mem (root : List FsFile) (n : Nat) (f : FsFile)
    (h : hasNativeExtLower f.name = true) :
    ((consolidateStep (root, n) f).1.any (fun g => g.name == f.name)) = true := by
  unfold consolidateStep
  rw [h]
  cases h2 : root.any (fun g => g.name == f.name) with
  | true => simpa using h2
  | false => simp

/-- The consolidation loop only appends to the root listing. -/
theorem consolidateFoldl_extends (fs : List FsFile) (root : List FsFile) (n : Nat) :
    ∃ extra, (fs.foldl consolidateStep (root, n)).1 = root ++ extra := by
  induction fs generalizing root n with
  | nil => exact ⟨[], (List.append_nil root).symm⟩
  | cons f fs ih =>
    rw [List.foldl_cons]
    rcases consolidateStep_cases (root, n) f with h | h
    · rw [h]; exact ih root n
    · rw [h]
      obtain ⟨e, he⟩ := ih (root ++ [f]) (n + 1)
      exact ⟨[f] ++ e, by rw [he, List.append_assoc]⟩

/-- A name test that holds in the accumulator keeps holding through the
rest of the loop. -/
theorem consolidateFoldl_any_mono (fs : List FsFile) (acc : List FsFile × Nat)
    (p : FsFile → Bool) (h : acc.1.any p = true) :
    ((fs.foldl consolidateStep acc).1.any p) = true := by
  induction fs generalizing acc with
  | nil => exact h
  | cons f fs ih =>
    rw [List.foldl_cons]
    apply ih
    rcases consolidateStep_cases acc f with hc | hc
    · rw [hc]; exact h
    · rw [hc]; simp only [List.any_append, h, Bool.true_or]

/-- After the consolidation loop, every native-extension file of the
walked listing has its name present in the resulting root. -/
theorem consolidateFoldl_contains (fs : List FsFile) (root : List FsFile) (n : Nat) :
    ∀ f ∈ fs, hasNativeExtLower f.name = true →
      ((fs.foldl consolidateStep (root, n)).1.any (fun g => g.name == f.name)) = true := by
  induction fs generalizing root n with
  | nil => intro f hf; cases hf
  | cons g fs ih =>
    intro f hf hnat
    rw [List.foldl_cons]
    rcases List.mem_cons.mp hf with hf | hf
    · subst hf
      exact consolidateFoldl_any_mono fs (consolidateStep (root, n) f) _
        (consolidateStep_mem root n f hnat)
    · exact ih _ _ f hf hnat

/-- When every native-extension file of the walked listing already has a
name at the root, the consolidation loop changes nothing and counts
nothing. -/
theorem consolidateFoldl_fixed (fs : List FsFile) : ∀ (root : List FsFile) (n : Nat),
    (∀ f ∈ fs, hasNativeExtLower f.name = true →
      root.any (fun g => g.name == f.name) = true) →
    fs.foldl consolidateStep (root, n) = (root, n) := by
  induction fs with
  | nil => intro root n _; rfl
  | cons f fs ih =>
    intro root n h
    have hstep : consolidateStep (root, n) f = (root, n) := by
      unfold consolidateStep
      cases h1 : hasNativeExtLower f.name with
      | false => simp
      | true => simp [h f (List.mem_cons_self f fs) h1]
    rw [List.foldl_cons, hstep]
    exact ih root n (fun g hg hn => h g (List.mem_cons_of_mem f hg) hn)

/-- One step never decreases the copy count. -/
theorem consolidateStep_count_le (acc : List FsFile × Nat) (f : FsFile) :
    acc.2 ≤ (consolidateStep acc f).2 := by
  rcases consolidateStep_cases acc f with h | h
  · rw [h]
  · rw [h]; exact Nat.le_succ acc.2

/-- The count threaded through the consolidation loop never decreases. -/
theorem consolidateFoldl_count_mono (fs : List FsFile) (acc : List FsFile × Nat) :
    acc.2 ≤ (fs.foldl consolidateStep acc).2 := by
  induction fs generalizing acc with
  | nil => exact Nat.le_refl _
  | cons f fs ih =>
    rw [List.foldl_cons]
    exact Nat.le_trans (consolidateStep_count_le acc f) (ih _)

/-- A consolidation run that counts zero copies leaves the root listing
untouched. -/
theorem consolidateFoldl_count_zero (fs : List FsFile) : ∀ (root : List FsFile) (n : Nat),
    (fs.foldl consolidateStep (root, n)).2 = n →
    (fs.foldl consolidateStep (root, n)).1 = root := by
  induction fs with
  | nil => intro root n _; rfl
  | cons f fs ih =>
    intro root n h
    rw [List.foldl_cons] at h ⊢
    rcases consolidateStep_cases (root, n) f with hc | hc
    · rw [hc] at h ⊢
      exact ih root n h
    · exfalso
      rw [hc] at h
      dsimp only at h
      have h2 := consolidateFoldl_count_mono fs (root ++ [f], n + 1)
      dsimp only at h2
      omega

/-- Claim C4: consolidation is idempotent — running `consolidate_natives`
a second time yields the same directory state as one run, the second run
copies zero files, and the files already at the root are preserved
unchanged (the run only appends new names, never clobbering an existing
root file). -/
theorem consolidate_natives_idempotent (d : NativesDir) :
    (consolidate_natives (consolidate_natives d).1).1 = (consolidate_natives d).1 ∧
    consolidate_copied_count (consolidate_natives d).1 = 0 ∧
    ∃ extra, ((consolidate_natives d).1).rootFiles = d.rootFiles ++ extra := by
  have hcont : ∀ f ∈ subdirFiles d, hasNativeExtLower f.name = true →
      (((consolidateFold d).1).any (fun g => g.name == f.name)) = true := by
    intro f hf hn
    exact consolidateFoldl_contains (subdirFiles d) d.rootFiles 0 f hf hn
  have hfix : (subdirFiles d).foldl consolidateStep ((consolidateFold d).1, 0) =
      ((consolidateFold d).1, 0) :=
    consolidateFoldl_fixed (subdirFiles d) (consolidateFold d).1 0 hcont
  have hfold1 : consolidateFold (consolidate_natives d).1 = ((consolidateFold d).1, 0) :=
    hfix
  refine ⟨?_, ?_, consolidateFoldl_extends (subdirFiles d) d.rootFiles 0⟩
  · have hdef : (consolidate_natives (consolidate_natives d).1).1 =
        { (consolidate_natives d).1 with
            rootFiles := (consolidateFold (consolidate_natives d).1).1 } := rfl
    rw [hdef, hfold1]
    rfl
  · show (consolidateFold (consolidate_natives d).1).2 = 0
    rw [hfold1]

/-- Claim C5 counterexample: `consolidate_natives` does not return the
copied-file count to its caller. Two runs with different copy counts
(one and zero) produce identical caller-visible return values, because
the Rust function returns `Result<(), String>` — the count is only
logged. -/
theorem consolidate_return_carries_no_count :
    consolidate_copied_count (NativesDir.mk [] [FsFile.mk "a.dll" "x"] [] [] []) = 1 ∧
    consolidate_copied_count (NativesDir.mk [] [] [] [] []) = 0 ∧
    (consolidate_natives (NativesDir.mk [] [FsFile.mk "a.dll" "x"] [] [] [])).2 =
      (consolidate_natives (NativesDir.mk [] [] [] [] [])).2 :=
  ⟨rfl, rfl, rfl⟩

/-- Claim C5 (amended): consolidation reports success as a bare unit
value — the copied-file count is logged, not returned — and a run that
copies zero files is a success, not an error, leaving the directory
unchanged. -/
theorem consolidate_zero_copies_is_success (d : NativesDir)
    (h : consolidate_copied_count d = 0) :
    (consolidate_natives d).2 = Except.ok () ∧ (consolidate_natives d).1 = d := by
  refine ⟨rfl, ?_⟩
  have hr : (consolidateFold d).1 = d.rootFiles :=
    consolidateFoldl_count_zero (subdirFiles d) d.rootFiles 0 h
  show ({ d with rootFiles := (consolidateFold d).1 } : NativesDir) = d
  rw [hr]

/-- Witness for the amended C5 theorem at a concrete directory whose
subfolders hold no native files: the count is zero and the run is a
success that changes nothing. -/
theorem consolidate_zero_copies_is_success_witness :
    consolidate_copied_count (NativesDir.mk [FsFile.mk "b.so" "y"] [] [] [] []) = 0 ∧
    (consolidate_natives (NativesDir.mk [FsFile.mk "b.so" "y"] [] [] [] [])).1 =
      NativesDir.mk [FsFile.mk "b.so" "y"] [] [] [] [] :=
  ⟨rfl, (consolidate_zero_copies_is_success (NativesDir.mk [FsFile.mk "b.so" "y"] [] [] [] []) rfl).2⟩

/-- Claim C1 counterexample: the failure condition does not cover runs
with an empty candidate list. Here the natives root holds no native
library after consolidation, and extraction over all (zero)
platform-filtered candidates leaves the root without natives — yet
`prepare_natives` succeeds, because an empty scan result returns `Ok`
before the final root re-check. -/
theorem prepare_natives_ok_on_no_candidates :
    check_natives_exist_in_root
      ((consolidate_natives (NativesDir.mk [] [] [] [] [])).1).rootFiles = false ∧
    check_natives_exist_in_root
      (extractAllJars Platform.linux
        (find_natives_jars ([] : List LibFile))
        ((consolidate_natives (NativesDir.mk [] [] [] [] [])).1).rootFiles) = false ∧
    prepare_natives Platform.linux
        (GameDir.mk (NativesDir.mk [] [] [] [] []) true []) =
      Except.ok (GameDir.mk (NativesDir.mk [] [] [] [] []) true []) :=
  ⟨rfl, rfl, rfl⟩

/-- Claim C1 (amended): provided the candidate scan found at least one
archive, a preparation run whose natives root holds no native library
after consolidation, and still holds none after extraction over the
platform-filtered candidates, fails with the explicit extraction error
rather than succeeding. -/
theorem prepare_natives_errors_when_root_left_empty (host : Platform) (g : GameDir)
    (h1 : find_natives_jars g.libraryFiles ≠ [])
    (h2 : check_natives_exist_in_root
      ((consolidate_natives g.natives).1).rootFiles = false)
    (h3 : check_natives_exist_in_root
      (extractAllJars host (find_natives_jars g.libraryFiles)
        ((consolidate_natives g.natives).1).rootFiles) = false) :
    prepare_natives host g =
      Except.error "No native libraries were extracted to root directory" := by
  have h1e : (find_natives_jars g.libraryFiles).isEmpty = false := by
    cases hc : find_natives_jars g.libraryFiles with
    | nil => exact absurd hc h1
    | cons a l => rfl
  show prepare_natives_local host g = _
  unfold prepare_natives_local
  simp [h2, h1e, h3]

/-- Witness for the amended C1 theorem: a libraries root whose only
candidate archive carries the foreign marker `natives-windows` on a
Linux host is skipped entirely, the root stays empty, and preparation
fails with the explicit error. -/
theorem prepare_natives_errors_when_root_left_empty_witness :
    find_natives_jars
        [LibFile.mk "game/libraries/lwjgl-natives-windows.jar" true
          [FsFile.mk "liblwjgl.dll" "bin"]] ≠ [] ∧
    prepare_natives Platform.linux
        (GameDir.mk (NativesDir.mk [] [] [] [] []) true
          [LibFile.mk "game/libraries/lwjgl-natives-windows.jar" true
            [FsFile.mk "liblwjgl.dll" "bin"]]) =
      Except.error "No native libraries were extracted to root directory" :=
  ⟨by decide,
   prepare_natives_errors_when_root_left_empty Platform.linux
     (GameDir.mk (NativesDir.mk [] [] [] [] []) true
       [LibFile.mk "game/libraries/lwjgl-natives-windows.jar" true
         [FsFile.mk "liblwjgl.dll" "bin"]])
     (by decide) (by decide) (by decide)⟩

/-- Claim C3 counterexample: a candidate archive whose name contains the
generic `natives-` substring but no recognized platform's marker — here
`lwjgl-natives-freebsd.jar` — is in the scanned candidate list, contains
no platform marker for any platform, and yet is skipped on a Linux
host, contradicting "an archive whose filename contains no platform
marker is always attempted". -/
theorem skip_without_platform_marker :
    find_natives_jars [LibFile.mk "lwjgl-natives-freebsd.jar" true []] =
      [LibFile.mk "lwjgl-natives-freebsd.jar" true []] ∧
    strContains "lwjgl-natives-freebsd.jar" "natives-windows" = false ∧
    strContains "lwjgl-natives-freebsd.jar" "natives-linux" = false ∧
    strContains "lwjgl-natives-freebsd.jar" "natives-osx" = false ∧
    strContains "lwjgl-natives-freebsd.jar" "natives-macos" = false ∧
    strContains "lwjgl-natives-freebsd.jar" "natives-unknown" = false ∧
    skipsJar Platform.linux "lwjgl-natives-freebsd.jar" = true := by
  decide

/-- The `platform_specific` test of lines 472-477 amounts to: the name
contains `natives-` and the host platform's own marker. -/
theorem platform_specific_eq (host : Platform) (name : String) :
    platform_specific host name =
      (strContains name "natives-" && hostMarker host name) := by
  have e1 : ("natives-" ++ "windows" : String) = "natives-windows" := rfl
  have e2 : ("natives-" ++ "linux" : String) = "natives-linux" := rfl
  have e3 : ("natives-" ++ "macos" : String) = "natives-macos" := rfl
  have e4 : ("natives-" ++ "unknown" : String) = "natives-unknown" := rfl
  cases host <;>
    simp only [platform_specific, hostMarker, platformStr, e1, e2, e3, e4] <;>
    cases strContains name "natives-" <;>
    cases strContains name "natives-windows" <;>
    cases strContains name "natives-linux" <;>
    cases strContains name "natives-osx" <;>
    cases strContains name "natives-macos" <;>
    cases strContains name "natives-unknown" <;>
    rfl

/-- Claim C3 (amended): the platform filter examines the candidate's
lowercased full path, and a candidate is skipped exactly when that path
contains the substring `natives-` but not the host platform's own
marker (`natives-windows` on Windows, `natives-linux` on Linux,
`natives-osx` or `natives-macos` on macOS, `natives-unknown` on an
unrecognized host); every other candidate — in particular one without
`natives-` or one carrying the host marker — is attempted. -/
theorem skipsJar_iff_no_host_marker (host : Platform) (name : String) :
    skipsJar host name =
      (strContains name "natives-" && !(hostMarker host name)) := by
  have hb : ∀ a b : Bool, (a && !(a && b)) = (a && !b) := by decide
  show (strContains name "natives-" && !(platform_specific host name)) = _
  rw [platform_specific_eq]
  exact hb _ _

/-! ## Injectivity of the identifier format -/

/-- Value of a little-endian base-10 digit list. -/
def ofDigits10 : List Nat → Nat
  | [] => 0
  | d :: ds => d + 10 * ofDigits10 ds

/-- The digit expansion round-trips with its value. -/
theorem ofDigits10_natDigitsAux :
    ∀ fuel n, n ≤ fuel → ofDigits10 (natDigitsAux fuel n) = n := by
  intro fuel
  induction fuel with
  | zero =>
    intro n hn
    have : n = 0 := Nat.le_zero.mp hn
    subst this
    rfl
  | succ fuel ih =>
    intro n hn
    cases n with
    | zero => rfl
    | succ m =>
      show ofDigits10 ((m + 1) % 10 :: natDigitsAux fuel ((m + 1) / 10)) = m + 1
      have hdiv : (m + 1) / 10 ≤ fuel := by
        have h1 : (m + 1) / 10 < m + 1 :=
          Nat.div_lt_self (Nat.succ_pos m) (by omega)
        omega
      show (m + 1) % 10 + 10 * ofDigits10 (natDigitsAux fuel ((m + 1) / 10)) = m + 1
      rw [ih ((m + 1) / 10) hdiv]
      exact Nat.mod_add_div (m + 1) 10

/-- The digit expansion determines the number. -/
theorem natDigits_inj {m n : Nat} (h : natDigits m = natDigits n) : m = n := by
  have hm : ofDigits10 (natDigits m) = m :=
    ofDigits10_natDigitsAux m m (Nat.le_refl m)
  have hn : ofDigits10 (natDigits n) = n :=
    ofDigits10_natDigitsAux n n (Nat.le_refl n)
  rw [← hm, ← hn, h]

/-- Every produced digit is below the base. -/
theorem natDigitsAux_lt10 :
    ∀ fuel n d, d ∈ natDigitsAux fuel n → d < 10 := by
  intro fuel
  induction fuel with
  | zero => intro n d hd; cases hd
  | succ fuel ih =>
    intro n d hd
    cases n with
    | zero => cases hd
    | succ m =>
      rcases List.mem_cons.mp hd with hd | hd
      · subst hd; exact Nat.mod_lt _ (by omega)
      · exact ih ((m + 1) / 10) d hd

/-- `Nat.digitChar` is injective on single digits (checked by
enumeration). -/
theorem digitChar_inj_fin :
    ∀ a b : Fin 10, Nat.digitChar a.val = Nat.digitChar b.val → a = b := by
  decide

/-- `Nat.digitChar` is injective below the base. -/
theorem digitChar_inj {a b : Nat} (ha : a < 10) (hb : b < 10)
    (h : Nat.digitChar a = Nat.digitChar b) : a = b :=
  congrArg Fin.val (digitChar_inj_fin ⟨a, ha⟩ ⟨b, hb⟩ h)

/-- Mapping `Nat.digitChar` over bounded digit lists is injective. -/
theorem map_digitChar_inj :
    ∀ l1 l2 : List Nat, (∀ d ∈ l1, d < 10) → (∀ d ∈ l2, d < 10) →
      l1.map Nat.digitChar = l2.map Nat.digitChar → l1 = l2 := by
  intro l1
  induction l1 with
  | nil =>
    intro l2 _ _ h
    cases l2 with
    | nil => rfl
    | cons b bs => simp at h
  | cons a as ih =>
    intro l2 h1 h2 h
    cases l2 with
    | nil => simp at h
    | cons b bs =>
      simp only [List.map_cons, List.cons.injEq] at h
      have hab : a = b :=
        digitChar_inj (h1 a (List.mem_cons_self a as))
          (h2 b (List.mem_cons_self b bs)) h.1
      have hrest : as = bs :=
        ih bs (fun d hd => h1 d (List.mem_cons_of_mem a hd))
          (fun d hd => h2 d (List.mem_cons_of_mem b hd)) h.2
      rw [hab, hrest]

/-- Equal string data means equal strings. -/
theorem stringDataEq {a b : String} (h : a.data = b.data) : a = b := by
  cases a; cases b; cases h; rfl

/-- A common string prefix cancels on the left. -/
theorem string_append_cancel {p a b : String} (h : p ++ a = p ++ b) : a = b := by
  have hd : (p ++ a).data = (p ++ b).data := congrArg String.data h
  have ha : (p ++ a).data = p.data ++ a.data := rfl
  have hb : (p ++ b).data = p.data ++ b.data := rfl
  rw [ha, hb] at hd
  exact stringDataEq (List.append_cancel_left hd)

/-- The decimal formatting used by the identifier generator is
injective. -/
theorem fmtNat_inj {m n : Nat} (h : fmtNat m = fmtNat n) : m = n := by
  unfold fmtNat at h
  by_cases hm : m = 0 <;> by_cases hn : n = 0
  · rw [hm, hn]
  · exfalso
    rw [if_pos hm, if_neg hn] at h
    have hd := congrArg String.data h
    have hrev : ((natDigits n).map Nat.digitChar).reverse = ['0'] := hd.symm
    have hmap : (natDigits n).map Nat.digitChar = ['0'] := by
      have := congrArg List.reverse hrev
      rwa [List.reverse_reverse] at this
    cases hnd : natDigits n with
    | nil => rw [hnd] at hmap; simp at hmap
    | cons d ds =>
      rw [hnd] at hmap
      simp only [List.map_cons, List.cons.injEq] at hmap
      have hds : ds = [] := by
        have := hmap.2
        cases ds with
        | nil => rfl
        | cons x xs => simp at this
      have hdlt : d < 10 := natDigitsAux_lt10 n n d (by rw [show natDigitsAux n n = natDigits n from rfl, hnd]; exact List.mem_cons_self d ds)
      have hd0 : d = 0 := digitChar_inj hdlt (by omega) hmap.1
      have : ofDigits10 (natDigits n) = n :=
        ofDigits10_natDigitsAux n n (Nat.le_refl n)
      rw [hnd, hds, hd0] at this
      exact hn this.symm
  · exfalso
    rw [if_neg hm, if_pos hn] at h
    have hd := congrArg String.data h
    have hrev : ((natDigits m).map Nat.digitChar).reverse = ['0'] := hd
    have hmap : (natDigits m).map Nat.digitChar = ['0'] := by
      have := congrArg List.reverse hrev
      rwa [List.reverse_reverse] at this
    cases hnd : natDigits m with
    | nil => rw [hnd] at hmap; simp at hmap
    | cons d ds =>
      rw [hnd] at hmap
      simp only [List.map_cons, List.cons.injEq] at hmap
      have hds : ds = [] := by
        have := hmap.2
        cases ds with
        | nil => rfl
        | cons x xs => simp at this
      have hdlt : d < 10 := natDigitsAux_lt10 m m d (by rw [show natDigitsAux m m = natDigits m from rfl, hnd]; exact List.mem_cons_self d ds)
      have hd0 : d = 0 := digitChar_inj hdlt (by omega) hmap.1
      have : ofDigits10 (natDigits m) = m :=
        ofDigits10_natDigitsAux m m (Nat.le_refl m)
      rw [hnd, hds, hd0] at this
      exact hm this.symm
  · rw [if_neg hm, if_neg hn] at h
    have hd := congrArg String.data h
    have hrev := congrArg List.reverse hd
    rw [List.reverse_reverse, List.reverse_reverse] at hrev
    have hdig : natDigits m = natDigits n :=
      map_digitChar_inj (natDigits m) (natDigits n)
        (fun d hd => natDigitsAux_lt10 m m d hd)
        (fun d hd => natDigitsAux_lt10 n n d hd) hrev
    exact natDigits_inj hdig

/-- The counter value after `k` launches is `(k + 1) % 2^64`. -/
theorem counterAfter_eq (k : Nat) :
    counterAfter k = (k + 1) % 18446744073709551616 := by
  induction k with
  | zero => rfl
  | succ k ih =>
    show (counterAfter k + 1) % 18446744073709551616 =
      (k + 1 + 1) % 18446744073709551616
    rw [ih]
    omega

/-- Claim C7 counterexample: the `u64` counter wraps, so identifier
uniqueness over all launches fails — launch `0` and the distinct launch
`2^64` receive the same identifier, because after `2^64` increments the
wrapped counter has returned to its starting value `1`. -/
theorem idIssued_wraps_after_u64_overflow :
    (0 : Nat) ≠ 18446744073709551616 ∧
    idIssued 0 = idIssued 18446744073709551616 := by
  refine ⟨by omega, ?_⟩
  show "game_process_" ++ fmtNat (counterAfter 0) =
    "game_process_" ++ fmtNat (counterAfter 18446744073709551616)
  rw [counterAfter_eq, counterAfter_eq]

/-- Claim C7 (amended): the identifier generator is a wrapping 64-bit
counter starting at 1 that advances by one modulo `2^64` on every
launch; any two distinct launches among the first `2^64` (i.e. before
the `u64` counter can wrap) receive distinct identifiers, so within
that horizon an identifier removed from the registry is never issued
again. -/
theorem generate_process_id_unique :
    counterAfter 0 = 1 ∧
    (∀ k, counterAfter (k + 1) =
      (counterAfter k + 1) % 18446744073709551616) ∧
    (∀ j k, j < 18446744073709551616 → k < 18446744073709551616 →
      j ≠ k → idIssued j ≠ idIssued k) := by
  refine ⟨rfl, fun k => rfl, ?_⟩
  intro j k hj hk hjk h
  apply hjk
  have hmf : fmtNat (counterAfter j) = fmtNat (counterAfter k) :=
    string_append_cancel h
  have hcc := fmtNat_inj hmf
  rw [counterAfter_eq, counterAfter_eq] at hcc
  omega

/-- Witness for the amended C7 theorem at the first two launches: both
lie below the wrap horizon and their identifiers differ. -/
theorem generate_process_id_unique_witness :
    counterAfter 0 = 1 ∧ idIssued 0 ≠ idIssued 1 :=
  ⟨generate_process_id_unique.1,
   generate_process_id_unique.2.2 0 1 (by omega) (by omega) (by omega)⟩

/-- Claim C6 counterexample: an asset path that exists but is not a
directory is not rejected — with preparation succeeding and a valid
game directory, the launch proceeds all the way to the spawn attempt,
contradicting "working-directory path or asset-directory path exists
but is not a directory implies launch returns an error and no process
is ever spawned". -/
theorem launch_accepts_nondirectory_assets :
    launch_game_client_dirs (Except.ok ())
        (LaunchDirs.mk PathState.dir PathState.file) =
      LaunchOutcome.spawnAttempted (LaunchDirs.mk PathState.dir PathState.file) :=
  rfl

/-- Claim C6 (amended): only the working directory carries the
exists-but-not-a-directory hard error — in that case launch returns an
error and the spawn is never attempted; an absent working or asset
directory is created, so any reached spawn attempt sees the working
directory as a directory and the asset directory created when it was
absent. The asset path is never validated against being a file. -/
theorem launch_dir_validation (prep : Except String Unit) (d : LaunchDirs) :
    (d.gameDir = PathState.file →
      ∃ m, launch_game_client_dirs prep d = LaunchOutcome.errored m) ∧
    (∀ d2, launch_game_client_dirs prep d = LaunchOutcome.spawnAttempted d2 →
      d2.gameDir = PathState.dir ∧
        d2.assetsDir =
          (if d.assetsDir = PathState.absent then PathState.dir else d.assetsDir)) := by
  constructor
  · intro hg
    cases prep with
    | error e =>
      exact ⟨"Failed to prepare native libraries: " ++ e, rfl⟩
    | ok u =>
      refine ⟨"Path is not a valid directory", ?_⟩
      simp only [launch_game_client_dirs]
      rw [hg]
      rfl
  · intro d2 hsp
    cases prep with
    | error e => cases hsp
    | ok u =>
      simp only [launch_game_client_dirs] at hsp
      cases hg : d.gameDir <;> rw [hg] at hsp <;>
        cases hd : d.assetsDir <;> rw [hd] at hsp <;>
        simp at hsp <;> simp [← hsp, hd]

/-- Witness for the amended C6 theorem: a file at the game path makes a
launch with successful preparation error out, and a spawn attempt out
of an absent assets path sees a directory. -/
theorem launch_dir_validation_witness :
    (∃ m, launch_game_client_dirs (Except.ok ())
        (LaunchDirs.mk PathState.file PathState.dir) = LaunchOutcome.errored m) ∧
    (LaunchDirs.mk PathState.dir PathState.dir).gameDir = PathState.dir :=
  ⟨(launch_dir_validation (Except.ok ())
      (LaunchDirs.mk PathState.file PathState.dir)).1 rfl,
   ((launch_dir_validation (Except.ok ())
      (LaunchDirs.mk PathState.dir PathState.absent)).2
      (LaunchDirs.mk PathState.dir PathState.dir) rfl).1⟩

/-- The concrete request of the spec's command-line example:
`ram = "2048"`, `mainClass = "net.example.Client"`,
`classPath = ["libraries"]`, no extra JVM or client flags, no server. -/
def exampleRequest : LaunchParams :=
  LaunchParams.mk "profile" "user" "uuid" "token" "game" "assets" 854 480 false
    "java" "17" "2048" [] [] "net.example.Client" ["libraries"] none none

/-- The libraries directory of the example: exactly `a.jar` and `b.jar`. -/
def exampleLibs : List LibFile :=
  [LibFile.mk "game/libraries/a.jar" true [], LibFile.mk "game/libraries/b.jar" true []]

/-- Claim C8: on every host platform, the command line built for the
example request contains `-Xmx2048m` and `-Xms2048m`, a single `-cp`
flag whose (adjacent) value joins the two jar paths with the platform
classpath separator, and the main class `net.example.Client` adjacent
right after the `java.library.path` flag. -/
theorem launch_command_example (host : Platform) :
    "-Xmx2048m" ∈ buildLaunchArgs host exampleRequest true exampleLibs ∧
    "-Xms2048m" ∈ buildLaunchArgs host exampleRequest true exampleLibs ∧
    (buildLaunchArgs host exampleRequest true exampleLibs).count "-cp" = 1 ∧
    ("-cp", "game/libraries/a.jar" ++ cpSeparator host ++ "game/libraries/b.jar") ∈
      (buildLaunchArgs host exampleRequest true exampleLibs).zip
        (buildLaunchArgs host exampleRequest true exampleLibs).tail ∧
    ("-Djava.library.path=" ++ pathJoin host "game" "natives",
        "net.example.Client") ∈
      (buildLaunchArgs host exampleRequest true exampleLibs).zip
        (buildLaunchArgs host exampleRequest true exampleLibs).tail := by
  cases host <;> decide

/-- Claim C9 counterexample: in the poll path for an exited process, the
stdout buffer is decoded strictly before the registry lock is released
(the registry unlock is the last event of the call), contradicting "the
lock is released before the captured buffers are decoded". -/
theorem poll_decodes_under_registry_lock :
    (check_game_process_events true).getLast? = some PollEvent.unlockRegistry ∧
    PollEvent.decodeBuf true ∈
      (check_game_process_events true).takeWhile
        (fun e => !(e == PollEvent.unlockRegistry)) ∧
    PollEvent.decodeBuf false ∈
      (check_game_process_events true).takeWhile
        (fun e => !(e == PollEvent.unlockRegistry)) := by
  decide

/-- Claim C9 (amended): the registry lock is held for the whole poll
body — the registry unlock is the final event of every poll call, and
when the process has exited both buffer decodings happen before it,
i.e. under the registry lock (each buffer lock is still scoped to its
single decode). -/
theorem poll_registry_lock_spans_decoding (b : Bool) :
    (check_game_process_events b).getLast? = some PollEvent.unlockRegistry ∧
    (b = true →
      PollEvent.decodeBuf true ∈
        (check_game_process_events b).takeWhile
          (fun e => !(e == PollEvent.unlockRegistry)) ∧
      PollEvent.decodeBuf false ∈
        (check_game_process_events b).takeWhile
          (fun e => !(e == PollEvent.unlockRegistry))) := by
  cases b <;> refine ⟨by decide, ?_⟩
  · intro h; cases h
  · intro h
    exact ⟨by decide, by decide⟩

/-- Witness for the amended C9 theorem at the exited-process path. -/
theorem poll_registry_lock_spans_decoding_witness :
    (check_game_process_events true).getLast? = some PollEvent.unlockRegistry ∧
    PollEvent.decodeBuf true ∈
      (check_game_process_events true).takeWhile
        (fun e => !(e == PollEvent.unlockRegistry)) :=
  ⟨(poll_registry_lock_spans_decoding true).1,
   ((poll_registry_lock_spans_decoding true).2 rfl).1⟩

/-- Looking up an identifier after removing it finds nothing. -/
theorem lookupId_removeId (reg : Registry) (id : String) :
    lookupId (removeId reg id) id = none := by
  have hfind : ((reg.filter (fun p => !(p.1 == id))).find?
      (fun p => p.1 == id)) = none := by
    rw [List.find?_eq_none]
    intro x hx hcontra
    have hmem := (List.mem_filter.mp hx).2
    rw [hcontra] at hmem
    simp at hmem
  show (((reg.filter (fun p => !(p.1 == id))).find?
      (fun p => p.1 == id)).map (fun p => p.2)) = none
  rw [hfind]
  rfl

/-- Claim C10: kill is not atomic on failure — when the registered
process's kill call errors, `kill_game_process` returns that error, but
the record has already been removed, so a subsequent poll or kill on
the same identifier reports "Process not found" even though the process
may still be running. -/
theorem kill_error_after_removal (reg : Registry) (id : String) (p : ProcHandle)
    (e : String) (hl : lookupId reg id = some p)
    (hk : p.killOutcome = Except.error e) :
    (kill_game_process reg id).1 =
      Except.error ("Failed to kill process: " ++ e) ∧
    (kill_game_process reg id).2 = removeId reg id ∧
    check_game_process (kill_game_process reg id).2 id =
      Except.error "Process not found" ∧
    (kill_game_process (kill_game_process reg id).2 id).1 =
      Except.error "Process not found" := by
  have hkill : kill_game_process reg id =
      (Except.error ("Failed to kill process: " ++ e), removeId reg id) := by
    unfold kill_game_process
    rw [hl]
    dsimp only
    rw [hk]
  refine ⟨by rw [hkill], by rw [hkill], ?_, ?_⟩
  · rw [hkill]
    show check_game_process (removeId reg id) id = _
    unfold check_game_process
    rw [lookupId_removeId]
  · rw [hkill]
    show (kill_game_process (removeId reg id) id).1 = _
    unfold kill_game_process
    rw [lookupId_removeId]

/-- Witness for C10 at a concrete one-record registry whose process kill
errors while the process is still running. -/
theorem kill_error_after_removal_witness :
    (kill_game_process
        [("game_process_1",
          ProcHandle.mk (Except.error "boom") TryWaitRes.running "" "")]
        "game_process_1").1 =
      Except.error ("Failed to kill process: " ++ "boom") ∧
    check_game_process
        (kill_game_process
          [("game_process_1",
            ProcHandle.mk (Except.error "boom") TryWaitRes.running "" "")]
          "game_process_1").2 "game_process_1" =
      Except.error "Process not found" :=
  ⟨(kill_error_after_removal
      [("game_process_1",
        ProcHandle.mk (Except.error "boom") TryWaitRes.running "" "")]
      "game_process_1"
      (ProcHandle.mk (Except.error "boom") TryWaitRes.running "" "")
      "boom" rfl rfl).1,
   (kill_error_after_removal
      [("game_process_1",
        ProcHandle.mk (Except.error "boom") TryWaitRes.running "" "")]
      "game_process_1"
      (ProcHandle.mk (Except.error "boom") TryWaitRes.running "" "")
      "boom" rfl rfl).2.2.1⟩

/-- Claim C2: the cleanup pass is meant to remove only records of exited
processes, but the source matches `Ok(_)` on `try_wait` — which also
covers `Ok(None)`, a process that is still running. Evaluating the
embedded code on a registry holding one still-running record: the
record is removed, where the claim requires it to remain. -/
theorem cleanup_removes_running_record :
    (ProcHandle.mk (Except.ok ()) TryWaitRes.running "" "").tryWaitR =
      TryWaitRes.running ∧
    cleanup_dead_processes
        [("game_process_1",
          ProcHandle.mk (Except.ok ()) TryWaitRes.running "" "")] = [] ∧
    cleanup_dead_processes
        [("game_process_2",
          ProcHandle.mk (Except.ok ()) TryWaitRes.errW "" "")] =
      [("game_process_2",
        ProcHandle.mk (Except.ok ()) TryWaitRes.errW "" "")] :=
  ⟨rfl, rfl, rfl⟩

end ALauncher
